import Mathlib

/-!
# Verification of the covid-moonshot-infra extraction/validation/slicing pipeline

Shallow embedding of the core pipeline of `choderalab/covid-moonshot-infra`:

* `covid_moonshot/extract_work.py` — record-table reading, validation and
  work extraction (`_is_header_line`, `_get_last_header_line`,
  `_get_num_steps`, `extract_work`);
* `covid_moonshot/analysis/structures.py` — atom-index resolution
  (`get_stored_atom_indices`), snapshot slicing (`slice_snapshot`),
  representative selection (the `min` call in `save_snapshots`) and
  molecule conversion (`mdtraj_to_oemol`).

Numeric columns (floats in the source) are embedded as rationals `ℚ`;
the `Step` column, converted with `astype(int)` in the source, is `Int`.
Python exceptions are embedded as an explicit error type `PyError`
carried in `Except`.
-/

/-- Embeds the Python exceptions that the modelled code can raise or that the
spec names.  `keyError` is pandas' label-lookup failure (`KeyError`),
`indexError` is numpy's positional out-of-range failure (`IndexError`),
`valueError` is Python's `ValueError` (used by `extract_work` for its
validation failures and by builtin `min` on an empty sequence),
`fileNotFoundError` is raised by `np.load` on a missing file, and
`dataValidationError` / `invalidResultError` embed the exception classes
declared in `fah_xchem/analysis/exceptions.py`. -/
inductive PyError : Type
  | keyError (k : Nat)
  | indexError (i : Nat)
  | valueError (msg : String)
  | fileNotFoundError
  | dataValidationError (msg : String) (path : String)
  | invalidResultError (msg : String)
deriving DecidableEq

/-- Embeds `ResultPath` from `covid_moonshot/core.py`: the (run, clone, gen)
identity of one simulation output unit together with its filesystem path. -/
structure ResultPath : Type where
  run : Nat
  clone : Nat
  gen : Nat
  path : String
deriving DecidableEq

/-- Embeds `Work` from `covid_moonshot/core.py`: one validated measurement,
tagged with its originating `ResultPath`. -/
structure Work : Type where
  path : ResultPath
  forward_work : ℚ
  reverse_work : ℚ
  forward_final_potential : ℚ
  reverse_final_potential : ℚ
deriving DecidableEq

/-- One parsed data row of a `globals.csv` record table, restricted to the
columns `extract_work` consumes (`Step`, `kT`, `protocol_work`, `Enew`). -/
structure Row : Type where
  Step : Int
  kT : ℚ
  protocol_work : ℚ
  Enew : ℚ
deriving DecidableEq

/-- Default row used only as the out-of-range fallback of `List.getD`. -/
def row0 : Row := ⟨0, 0, 0, 0⟩

/-- Embeds `pandas.DataFrame.drop_duplicates` on full-row equality: keep the
first occurrence of each row, preserving order. -/
def drop_duplicates {α : Type} [DecidableEq α] : List α → List α
  | [] => []
  | r :: rs => r :: drop_duplicates (rs.filter (fun x => x ≠ r))
termination_by l => l.length
decreasing_by
  simp only [List.length_cons]
  exact Nat.lt_succ_of_le (List.length_filter_le _ _)

/-- Protocol constant `NUM_WORKS_EXPECTED` from `extract_work.py`. -/
def NUM_WORKS_EXPECTED : Nat := 41

/-- Protocol constant `NUM_STEPS_EXPECTED` from `extract_work.py`. -/
def NUM_STEPS_EXPECTED : Int := 1000000

/-- Embeds `_get_num_steps` from `extract_work.py`: raises
`ValueError("Empty dataframe")` on an empty frame, otherwise returns
`int(step.iloc[-1] - step.iloc[0])`. -/
def _get_num_steps (df : List Row) : Except PyError Int :=
  match df with
  | [] => .error (.valueError "Empty dataframe")
  | r :: rs => .ok (((r :: rs).getLastD r).Step - r.Step)

/-- Positional indexing into a numpy array (`arr[i]`): out-of-range access
raises `IndexError` (not `KeyError`). -/
def npGet (l : List ℚ) (i : Nat) : Except PyError ℚ :=
  match l.get? i with
  | some x => .ok x
  | none => .error (.indexError i)

/-- The `Work(...)` constructor call of `extract_work.py` lines 130-136: the
six element reads happen left to right on the two numpy arrays. -/
def work_build (path : ResultPath) (pw en : List ℚ) : Except PyError Work := do
  let a ← npGet pw 20
  let b ← npGet pw 10
  let c ← npGet pw 40
  let d ← npGet pw 30
  let e ← npGet en 20
  let f ← npGet en 40
  pure { path := path, forward_work := a - b, reverse_work := c - d,
         forward_final_potential := e, reverse_final_potential := f }

/-- The `try/except KeyError` block of `extract_work.py` lines 129-141: a
`KeyError` raised while building the `Work` is remapped to the row-count
`ValueError`; any other exception (in particular numpy's `IndexError`, which
`except KeyError` does not match) propagates unchanged. -/
def remap_keyError (dflen : Nat) (r : Except PyError Work) : Except PyError Work :=
  match r with
  | .ok w => .ok w
  | .error (.keyError k) =>
    .error (.valueError s!"Tried to index into dataframe at row {k}, but dataframe has {dflen} rows")
  | .error e => .error e

/-- Embeds `extract_work` from `extract_work.py` lines 96-141 (the part after
`pd.read_csv`) on a non-empty deduplicated frame `r0 :: rest`: the thermal
energy is read from the row with label 0 (`df["kT"].astype(float)[0]`; after
`drop_duplicates` label 0 is the first row, since the first occurrence of a
row is kept), the `protocol_work` and `Enew` columns are divided by it, the
work count and the step count are validated, and finally the `Work` is
built, remapping a `KeyError` raised by the construction (and only a
`KeyError` — the `except KeyError` clause does not catch numpy's
`IndexError`) to the row-count `ValueError`. -/
def extract_work_nonempty (path : ResultPath) (r0 : Row) (rest : List Row) :
    Except PyError Work :=
  if ((r0 :: rest).map (fun r => r.protocol_work / r0.kT)).length ≠ NUM_WORKS_EXPECTED then
    .error (.valueError s!"Expected {NUM_WORKS_EXPECTED} work values, but found {((r0 :: rest).map (fun r => r.protocol_work / r0.kT)).length}")
  else
    (_get_num_steps (r0 :: rest)).bind (fun num_steps =>
      if num_steps ≠ NUM_STEPS_EXPECTED then
        .error (.valueError s!"Expected {NUM_STEPS_EXPECTED} steps, but found {num_steps}")
      else
        remap_keyError (r0 :: rest).length
          (work_build path ((r0 :: rest).map (fun r => r.protocol_work / r0.kT))
            ((r0 :: rest).map (fun r => r.Enew / r0.kT))))

/-- See the doc comment above `extract_work_nonempty`: this is the dispatch
on whether the deduplicated frame is empty (`df["kT"].astype(float)[0]`
raises `KeyError: 0` exactly in the empty case). -/
def extract_work_rows (path : ResultPath) (rows : List Row) : Except PyError Work :=
  match drop_duplicates rows with
  | [] => .error (.keyError 0)
  | r0 :: rest => extract_work_nonempty path r0 rest

/-- `startsWithSeq s pat` is true when `pat` is an initial segment of `s`. -/
def startsWithSeq : List Char → List Char → Bool
  | _, [] => true
  | [], _ :: _ => false
  | c :: cs, p :: ps => c = p && startsWithSeq cs ps

/-- `containsSeq s pat` is true when `pat` occurs contiguously inside `s`
(Python's `pat in s` on strings). -/
def containsSeq : List Char → List Char → Bool
  | [], pat => pat.isEmpty
  | c :: cs, pat => startsWithSeq (c :: cs) pat || containsSeq cs pat

/-- Embeds `_is_header_line` from `extract_work.py`: `"kT" in line`, i.e. the
marker field name occurs as a substring of the raw line. -/
def _is_header_line (line : String) : Bool :=
  containsSeq line.data "kT".data

/-- Embeds `_get_last_header_line` from `extract_work.py`: the index of the
last line satisfying `_is_header_line`
(`[i for i, line in enumerate(lines) if _is_header_line(line)][-1]`),
or `none` when there is no such line (the source then raises
`ValueError(f"Missing header in {path}")`). -/
def _get_last_header_line : List String → Option Nat
  | [] => none
  | l :: ls =>
    match _get_last_header_line ls with
    | some i => some (i + 1)
    | none => if _is_header_line l then some 0 else none

/-- Embeds the reading part of `extract_work` (`extract_work.py` lines 92-94):
locate the last header line, fail with the source's `ValueError` when there
is none, and otherwise parse every following line against that header.
`pandas.read_csv` is external; its per-line parsing is embedded as the
function argument `parse`, applied to the header line and the data line. -/
def read_table (parse : String → String → Row) (path : ResultPath)
    (lines : List String) : Except PyError (List Row) :=
  match _get_last_header_line lines with
  | none => .error (.valueError s!"Missing header in {path.path}")
  | some h => .ok ((lines.drop (h + 1)).map (parse (lines.getD h "")))

/-- Embeds the whole of `extract_work` from `extract_work.py`: read the
record table from the file's lines, then extract the work values. -/
def extract_work (parse : String → String → Row) (path : ResultPath)
    (lines : List String) : Except PyError Work :=
  (read_table parse path lines).bind (extract_work_rows path)

/-- The index-difference formula of spec §4.2 step 4, stated over a cleaned
row table: forward work = dimensionless-work[20] − dimensionless-work[10],
reverse work = dimensionless-work[40] − dimensionless-work[30], forward and
reverse final potentials = dimensionless-`Enew` at indices 20 and 40, where
each dimensionless series is the raw column divided by the `kT` value of the
first row. -/
def spec_work_formula (p : ResultPath) (df : List Row) : Work :=
  { path := p
  , forward_work := (df.getD 20 row0).protocol_work / (df.headD row0).kT
      - (df.getD 10 row0).protocol_work / (df.headD row0).kT
  , reverse_work := (df.getD 40 row0).protocol_work / (df.headD row0).kT
      - (df.getD 30 row0).protocol_work / (df.headD row0).kT
  , forward_final_potential := (df.getD 20 row0).Enew / (df.headD row0).kT
  , reverse_final_potential := (df.getD 40 row0).Enew / (df.headD row0).kT }

/-- Concrete path identity used by witnesses and counterexamples. -/
def pW0 : ResultPath := { run := 0, clone := 2, gen := 3, path := "PROJ13422/RUN0/CLONE2/results3/globals.csv" }

/-- A well-formed 41-row table: `Step` runs from 0 to 1,000,000 in increments
of 25,000, `kT = 2`, `protocol_work = i`, `Enew = i * i`. -/
def rows41 : List Row :=
  (List.range 41).map (fun i =>
    { Step := 25000 * (i : Int), kT := 2, protocol_work := (i : ℚ), Enew := (i : ℚ) * (i : ℚ) })

/-- A two-row duplicate-free table (wrong length). -/
def rows2 : List Row :=
  [{ Step := 0, kT := 2, protocol_work := 1, Enew := 1 },
   { Step := 1000000, kT := 2, protocol_work := 3, Enew := 9 }]

/-- A trivial stand-in for the external `pandas.read_csv` per-line parser,
used only to instantiate witnesses. -/
def parse0 : String → String → Row := fun _ _ => row0

/-- True exactly when the outcome is a Python `ValueError`. -/
def isValueErrorOutcome : Except PyError Work → Bool
  | .error (.valueError _) => true
  | _ => false

/-- True exactly when the outcome is a `DataValidationError`. -/
def isDataValidationOutcome : Except PyError Work → Bool
  | .error (.dataValidationError _ _) => true
  | _ => false

/-- True exactly when the outcome is an `InvalidResultError`. -/
def isInvalidResultOutcome : Except PyError Work → Bool
  | .error (.invalidResultError _) => true
  | _ => false

/-- True exactly when the outcome is a raw indexing fault — a propagated
`KeyError` or `IndexError`. -/
def isRawIndexingFault : Except PyError Work → Bool
  | .error (.keyError _) => true
  | .error (.indexError _) => true
  | _ => false

/-- True exactly when a read outcome is a `DataValidationError`. -/
def readIsDataValidationOutcome : Except PyError (List Row) → Bool
  | .error (.dataValidationError _ _) => true
  | _ => false

/-- The residue class of one atom of the hybrid topology, as seen by the
mdtraj selection queries used in `get_stored_atom_indices`
(`structures.py` lines 178-186): `"not water"` selects every atom whose
residue is not water, `"protein"` selects atoms of protein residues, and
`"resn MOL"` selects atoms of the residue named `MOL` (the hybrid ligand).
A residue is exactly one of water, protein, MOL or something else, so the
three queries are predicates on this category. -/
inductive AtomCategory : Type
  | water
  | protein
  | mol
  | other
deriving DecidableEq

/-- The parts of the `htf.npz` hybrid-topology object consumed by
`get_stored_atom_indices`: the per-atom residue classes of
`htf.hybrid_topology` (atom `i` has class `hybrid_topology[i]`), and the
value sets of the two identity maps `htf._old_to_hybrid_map` and
`htf._new_to_hybrid_map` (the code only ever tests membership in
`.values()`). -/
structure Htf : Type where
  hybrid_topology : List AtomCategory
  old_to_hybrid_values : List Nat
  new_to_hybrid_values : List Nat

/-- `mdtraj.Topology.select`: the indices of the atoms matching a selection
predicate, in ascending order. -/
def select (top : List AtomCategory) (p : AtomCategory → Bool) : List Nat :=
  (List.range top.length).filter (fun i => p (top.getD i .other))

/-- Lookup in the dict
`{nonwater_atom_indices[index]: index for index in range(len(nonwater_atom_indices))}`
(`structures.py` lines 179-182): the position of the key in the ascending
non-water index list (`none` embeds a `KeyError`; the dict keys are the
distinct entries of the list, so first-position lookup is the dict value). -/
def lookupStored : List Nat → Nat → Option Nat
  | [], _ => none
  | x :: xs, k => if x = k then some 0 else (lookupStored xs k).map (· + 1)

/-- The list comprehension `[hybrid_to_stored_map[index] for index in l]`:
maps every hybrid index through the dict, raising `KeyError` on a missing
key. -/
def mapStored (nonwater : List Nat) : List Nat → Except PyError (List Nat)
  | [] => .ok []
  | k :: ks =>
    match lookupStored nonwater k with
    | none => .error (.keyError k)
    | some i => (mapStored nonwater ks).map (fun out => i :: out)

/-- The `stored_atom_indices` dict returned by `get_stored_atom_indices`
(`structures.py` lines 200-219), with its five keys as fields. -/
structure StoredAtomIndices : Type where
  protein : List Nat
  old_ligand : List Nat
  new_ligand : List Nat
  old_complex : List Nat
  new_complex : List Nat
deriving DecidableEq

/-- Embeds `get_stored_atom_indices` from `structures.py` lines 168-219
(after the `np.load`): select the non-water atoms of the hybrid topology
(ascending), the protein atoms and the `MOL`-residue atoms; restrict the
ligand atoms to those present among the old / new identity-map values; and
project every set through the hybrid-to-stored position map.  The complex
lists are built from the concatenation `list(protein) + list(ligand)` in
that order — no sort is applied. -/
def get_stored_atom_indices (htf : Htf) : Except PyError StoredAtomIndices :=
  let nonwater_atom_indices := select htf.hybrid_topology (fun c => c ≠ AtomCategory.water)
  let protein_atom_indices := select htf.hybrid_topology (fun c => c = AtomCategory.protein)
  let hybrid_ligand_atom_indices := select htf.hybrid_topology (fun c => c = AtomCategory.mol)
  let old_ligand_atom_indices :=
    hybrid_ligand_atom_indices.filter (fun i => i ∈ htf.old_to_hybrid_values)
  let new_ligand_atom_indices :=
    hybrid_ligand_atom_indices.filter (fun i => i ∈ htf.new_to_hybrid_values)
  (mapStored nonwater_atom_indices protein_atom_indices).bind (fun protein =>
  (mapStored nonwater_atom_indices old_ligand_atom_indices).bind (fun old_ligand =>
  (mapStored nonwater_atom_indices new_ligand_atom_indices).bind (fun new_ligand =>
  (mapStored nonwater_atom_indices
      (protein_atom_indices ++ old_ligand_atom_indices)).bind (fun old_complex =>
  (mapStored nonwater_atom_indices
      (protein_atom_indices ++ new_ligand_atom_indices)).bind (fun new_complex =>
  .ok { protein := protein, old_ligand := old_ligand, new_ligand := new_ligand,
        old_complex := old_complex, new_complex := new_complex })))))

/-- `np.load(f"{path}/htf.npz")` raises `FileNotFoundError` when the
auxiliary file is missing; otherwise resolution proceeds on its contents.
The missing file is embedded as `none`. -/
def get_stored_atom_indices_load : Option Htf → Except PyError StoredAtomIndices
  | none => .error .fileNotFoundError
  | some htf => get_stored_atom_indices htf

/-- A hybrid topology whose single ligand atom appears in both the old-state
and the new-state identity maps, as the shared core atoms of a real hybrid
topology do. -/
def htfC3 : Htf :=
  { hybrid_topology := [AtomCategory.mol],
    old_to_hybrid_values := [0], new_to_hybrid_values := [0] }

/-- The resolution of `htfC3`. -/
def sC3 : StoredAtomIndices :=
  { protein := [], old_ligand := [0], new_ligand := [0],
    old_complex := [0], new_complex := [0] }

/-- A small hybrid topology on which resolution succeeds with non-empty
sets: protein atom 0, water atom 1, ligand atom 2 shared by both maps. -/
def htfW : Htf :=
  { hybrid_topology := [AtomCategory.protein, AtomCategory.water, AtomCategory.mol],
    old_to_hybrid_values := [2], new_to_hybrid_values := [2] }

/-- The resolution of `htfW`. -/
def sW : StoredAtomIndices :=
  { protein := [0], old_ligand := [1], new_ligand := [1],
    old_complex := [0, 1], new_complex := [0, 1] }

/-- A hybrid topology with no ligand atoms at all: both ligand projections
are empty. -/
def htfC8 : Htf :=
  { hybrid_topology := [AtomCategory.protein],
    old_to_hybrid_values := [], new_to_hybrid_values := [] }

/-- The resolution of `htfC8`. -/
def sC8 : StoredAtomIndices :=
  { protein := [0], old_ligand := [], new_ligand := [],
    old_complex := [0], new_complex := [0] }

/-- A 3-D coordinate of one atom of the (single-frame) snapshot; float
components embedded as rationals. -/
abbrev Coord : Type := ℚ × ℚ × ℚ

/-- Fallback coordinate for `List.getD`. -/
def coord0 : Coord := (0, 0, 0)

/-- numpy fancy indexing `snapshot.xyz[:, atom_indices, :]` on a
single-frame snapshot: picks the atom rows in exactly the given order (no
sorting, and the result is a fresh array — advanced indexing copies),
raising `IndexError` on an out-of-range index. -/
def fancyIndex (frame : List Coord) : List Nat → Except PyError (List Coord)
  | [] => .ok []
  | i :: is =>
    match frame.get? i with
    | none => .error (.indexError i)
    | some c => (fancyIndex frame is).map (fun out => c :: out)

/-- The `sliced_snapshot` dict produced by `slice_snapshot`
(`structures.py` lines 269-276), restricted to the coordinate data (the
paired `topology.subset` metadata carries no information the claims
reference). -/
structure SlicedSnapshot : Type where
  protein : List Coord
  old_ligand : List Coord
  new_ligand : List Coord
  old_complex : List Coord
  new_complex : List Coord
deriving DecidableEq

/-- Embeds the slicing loop of `slice_snapshot` (`structures.py` lines
269-276): for each of the five keys of the stored-atom-index dict, build a
new trajectory from `snapshot.xyz[:, atom_indices, :]` — the index list is
used exactly as produced by `get_stored_atom_indices`, with no sorting. -/
def slice_snapshot (snapshot : List Coord) (sai : StoredAtomIndices) :
    Except PyError SlicedSnapshot :=
  (fancyIndex snapshot sai.protein).bind (fun protein =>
  (fancyIndex snapshot sai.old_ligand).bind (fun old_ligand =>
  (fancyIndex snapshot sai.new_ligand).bind (fun new_ligand =>
  (fancyIndex snapshot sai.old_complex).bind (fun old_complex =>
  (fancyIndex snapshot sai.new_complex).bind (fun new_complex =>
  .ok { protein := protein, old_ligand := old_ligand, new_ligand := new_ligand,
        old_complex := old_complex, new_complex := new_complex })))))

/-- The hybrid topology behind the C4 counterexample: the ligand atom comes
before the protein atom, so the old-complex stored index list `[1, 0]` is
not ascending. -/
def htfC4 : Htf :=
  { hybrid_topology := [AtomCategory.mol, AtomCategory.protein],
    old_to_hybrid_values := [0], new_to_hybrid_values := [] }

/-- The resolution of `htfC4`: `old_complex = [1, 0]` (protein first, then
ligand — unsorted). -/
def sC4 : StoredAtomIndices :=
  { protein := [1], old_ligand := [0], new_ligand := [],
    old_complex := [1, 0], new_complex := [1] }

/-- A two-atom snapshot with distinct coordinates. -/
def snapC4 : List Coord := [(0, 0, 0), (1, 1, 1)]

/-- The slice of `snapC4` along `sC4`. -/
def ssC4 : SlicedSnapshot :=
  { protein := [(1, 1, 1)], old_ligand := [(0, 0, 0)], new_ligand := [],
    old_complex := [(1, 1, 1), (0, 0, 0)], new_complex := [(1, 1, 1)] }

/-- Embeds the representative selection of `save_snapshots`
(`structures.py` line 292): `lrw = min(works, key=lambda w: w.reverse_work)`.
Python's builtin `min` scans left to right keeping the current best and
replaces it only on a strictly smaller key, so the first minimal element
wins ties; on an empty sequence it raises
`ValueError("min() arg is an empty sequence")`. -/
def min_by_reverse_work (works : List Work) : Except PyError Work :=
  match works with
  | [] => .error (.valueError "min() arg is an empty sequence")
  | w :: ws =>
    .ok (ws.foldl (fun best x => if x.reverse_work < best.reverse_work then x else best) w)

/-- A concrete `Work` value. -/
def wA : Work :=
  { path := pW0, forward_work := 1, reverse_work := 5,
    forward_final_potential := 2, reverse_final_potential := 3 }

/-- Embeds `mdtraj_to_oemol` (`structures.py` lines 80-108): the snapshot is
written to a temporary PDB file and read back with an OpenEye molecule
stream; the loop `for mol in ifs.GetOEGraphMols(): return mol` returns the
first molecule the stream yields, and when the stream yields none the loop
body never runs and the function falls off the end, returning `None` — it
has no raising path.  The external save/read roundtrip is embedded as the
function argument `readMols` giving the molecules the stream yields for a
snapshot. -/
def mdtraj_to_oemol {Mol : Type} (readMols : List Coord → List Mol)
    (snapshot : List Coord) : Option Mol :=
  match readMols snapshot with
  | [] => none
  | m :: _ => some m

/-- Embeds the components loop of `extract_snapshot` (`structures.py` lines
159-165): `components[name] = mdtraj_to_oemol(sliced_snapshot[name])` for
each of the three molecule subset names; the dict maps each name to an
`Option Mol` and the loop has no failure path. -/
def build_components {Mol : Type} (readMols : List Coord → List Mol)
    (ss : SlicedSnapshot) : List (String × Option Mol) :=
  [("protein", mdtraj_to_oemol readMols ss.protein),
   ("old_ligand", mdtraj_to_oemol readMols ss.old_ligand),
   ("new_ligand", mdtraj_to_oemol readMols ss.new_ligand)]

theorem drop_duplicates_nil {α : Type} [DecidableEq α] :
    drop_duplicates ([] : List α) = [] := by
  simp [drop_duplicates]

theorem drop_duplicates_cons {α : Type} [DecidableEq α] (r : α) (rs : List α) :
    drop_duplicates (r :: rs) = r :: drop_duplicates (rs.filter (fun x => x ≠ r)) := by
  simp [drop_duplicates]

theorem drop_duplicates_subset {α : Type} [DecidableEq α] (l : List α) :
    drop_duplicates l ⊆ l := by
  induction l using drop_duplicates.induct with
  | case1 => simp [drop_duplicates]
  | case2 r rs ih =>
    rw [drop_duplicates_cons]
    intro x hx
    rcases List.mem_cons.mp hx with h | h
    · simp [h]
    · exact List.mem_cons_of_mem _ (List.mem_of_mem_filter (ih h))

theorem drop_duplicates_nodup {α : Type} [DecidableEq α] (l : List α) :
    (drop_duplicates l).Nodup := by
  induction l using drop_duplicates.induct with
  | case1 => simp [drop_duplicates]
  | case2 r rs ih =>
    rw [drop_duplicates_cons]
    refine List.nodup_cons.mpr ⟨?_, ih⟩
    intro hmem
    have := drop_duplicates_subset _ hmem
    have := List.of_mem_filter this
    simp at this

theorem drop_duplicates_eq_self {α : Type} [DecidableEq α] {l : List α}
    (h : l.Nodup) : drop_duplicates l = l := by
  induction l using drop_duplicates.induct with
  | case1 => simp [drop_duplicates]
  | case2 r rs ih =>
    rw [drop_duplicates_cons]
    rcases List.nodup_cons.mp h with ⟨hr, hrs⟩
    have hfilter : rs.filter (fun x => x ≠ r) = rs := by
      apply List.filter_eq_self.mpr
      intro x hx
      simp only [ne_eq, decide_eq_true_eq]
      intro hxr
      exact hr (hxr ▸ hx)
    rw [hfilter] at ih ⊢
    rw [ih hrs]

theorem drop_duplicates_idem {α : Type} [DecidableEq α] (l : List α) :
    drop_duplicates (drop_duplicates l) = drop_duplicates l :=
  drop_duplicates_eq_self (drop_duplicates_nodup l)

theorem drop_duplicates_eq_nil_iff {α : Type} [DecidableEq α] (l : List α) :
    drop_duplicates l = [] ↔ l = [] := by
  cases l with
  | nil => simp [drop_duplicates]
  | cons r rs => simp [drop_duplicates_cons]

theorem npGet_ok (l : List ℚ) (i : Nat) (h : i < l.length) :
    npGet l i = .ok (l.getD i 0) := by
  rw [npGet, List.getD_eq_getElem l 0 h]
  rw [List.get?_eq_getElem?, List.getElem?_eq_getElem h]

theorem work_build_ok (p : ResultPath) (pw en : List ℚ)
    (hpw : pw.length = 41) (hen : en.length = 41) :
    work_build p pw en = .ok
      { path := p, forward_work := pw.getD 20 0 - pw.getD 10 0,
        reverse_work := pw.getD 40 0 - pw.getD 30 0,
        forward_final_potential := en.getD 20 0,
        reverse_final_potential := en.getD 40 0 } := by
  rw [work_build]
  rw [npGet_ok pw 20 (by omega), npGet_ok pw 10 (by omega),
      npGet_ok pw 40 (by omega), npGet_ok pw 30 (by omega),
      npGet_ok en 20 (by omega), npGet_ok en 40 (by omega)]
  rfl

theorem getLastD_irrel {α : Type} (r : α) (rs : List α) (d d' : α) :
    (r :: rs).getLastD d = (r :: rs).getLastD d' := by
  induction rs generalizing r with
  | nil => rfl
  | cons x xs ih => simp only [List.getLastD_cons]

theorem getD_map_lt {α β : Type} (f : α → β) (l : List α) (i : Nat)
    (h : i < l.length) (d : α) (d' : β) :
    (l.map f).getD i d' = f (l.getD i d) := by
  rw [List.getD_eq_getElem _ _ (by simpa using h), List.getD_eq_getElem _ _ h,
    List.getElem_map]

theorem _get_num_steps_cons (r : Row) (rs : List Row) :
    _get_num_steps (r :: rs) = .ok (((r :: rs).getLastD row0).Step - r.Step) := by
  rw [_get_num_steps, getLastD_irrel r rs row0 r]

theorem pw_nodims_getD (r0 : Row) (rest : List Row) (i : Nat)
    (h : i < (r0 :: rest).length) :
    ((r0 :: rest).map (fun r => r.protocol_work / r0.kT)).getD i 0
      = ((r0 :: rest).getD i row0).protocol_work / r0.kT := by
  rw [getD_map_lt _ _ _ h row0 0]

theorem en_nodims_getD (r0 : Row) (rest : List Row) (i : Nat)
    (h : i < (r0 :: rest).length) :
    ((r0 :: rest).map (fun r => r.Enew / r0.kT)).getD i 0
      = ((r0 :: rest).getD i row0).Enew / r0.kT := by
  rw [getD_map_lt _ _ _ h row0 0]

theorem remap_keyError_ok (n : Nat) (w : Work) :
    remap_keyError n (.ok w) = .ok w := rfl

theorem except_bind_ok {ε α β : Type} (a : α) (f : α → Except ε β) :
    (Except.ok a : Except ε α).bind f = f a := rfl

theorem extract_work_nonempty_ok (p : ResultPath) (r0 : Row) (rest : List Row)
    (hlen : (r0 :: rest).length = 41)
    (hsteps : ((r0 :: rest).getLastD row0).Step - r0.Step = 1000000) :
    extract_work_nonempty p r0 rest = .ok (spec_work_formula p (r0 :: rest)) := by
  have hpwlen : ((r0 :: rest).map (fun r => r.protocol_work / r0.kT)).length = 41 := by
    rw [List.length_map, hlen]
  have henlen : ((r0 :: rest).map (fun r => r.Enew / r0.kT)).length = 41 := by
    rw [List.length_map, hlen]
  rw [extract_work_nonempty, if_neg (by rw [hpwlen]; decide), _get_num_steps_cons,
    except_bind_ok, if_neg (by rw [hsteps]; decide),
    work_build_ok p _ _ hpwlen henlen, remap_keyError_ok]
  simp only [spec_work_formula, List.headD_cons,
    pw_nodims_getD r0 rest 20 (by omega), pw_nodims_getD r0 rest 10 (by omega),
    pw_nodims_getD r0 rest 40 (by omega), pw_nodims_getD r0 rest 30 (by omega),
    en_nodims_getD r0 rest 20 (by omega), en_nodims_getD r0 rest 40 (by omega)]

theorem extract_work_rows_nil (p : ResultPath) (rows : List Row)
    (h : drop_duplicates rows = []) :
    extract_work_rows p rows = .error (.keyError 0) := by
  rw [extract_work_rows, h]

theorem extract_work_rows_cons (p : ResultPath) (rows : List Row) (r0 : Row)
    (rest : List Row) (h : drop_duplicates rows = r0 :: rest) :
    extract_work_rows p rows = extract_work_nonempty p r0 rest := by
  rw [extract_work_rows, h]

theorem extract_work_nonempty_badlen (p : ResultPath) (r0 : Row) (rest : List Row)
    (hlen : (r0 :: rest).length ≠ 41) :
    extract_work_nonempty p r0 rest
      = .error (.valueError s!"Expected {NUM_WORKS_EXPECTED} work values, but found {(r0 :: rest).length}") := by
  rw [extract_work_nonempty,
    if_pos (by rw [List.length_map]; simpa [NUM_WORKS_EXPECTED] using hlen),
    List.length_map]

theorem extract_work_nonempty_badsteps (p : ResultPath) (r0 : Row) (rest : List Row)
    (hlen : (r0 :: rest).length = 41)
    (hsteps : ((r0 :: rest).getLastD row0).Step - r0.Step ≠ 1000000) :
    extract_work_nonempty p r0 rest
      = .error (.valueError s!"Expected {NUM_STEPS_EXPECTED} steps, but found {((r0 :: rest).getLastD row0).Step - r0.Step}") := by
  rw [extract_work_nonempty,
    if_neg (by rw [List.length_map, hlen]; decide),
    _get_num_steps_cons, except_bind_ok,
    if_pos (by simpa [NUM_STEPS_EXPECTED] using hsteps)]

theorem extract_work_rows_dedup (p : ResultPath) (l : List Row) :
    extract_work_rows p (drop_duplicates l) = extract_work_rows p l := by
  rw [extract_work_rows, extract_work_rows, drop_duplicates_idem]

theorem _get_last_header_line_none_of_all (lines : List String)
    (hall : ∀ l ∈ lines, _is_header_line l = false) :
    _get_last_header_line lines = none := by
  induction lines with
  | nil => rfl
  | cons x xs ih =>
    rw [_get_last_header_line, ih (fun l hl => hall l (List.mem_cons_of_mem x hl))]
    simp [hall x (List.mem_cons_self x xs)]

theorem _get_last_header_line_ne_none (lines : List String) (l : String)
    (hmem : l ∈ lines) (hl : _is_header_line l = true) :
    _get_last_header_line lines ≠ none := by
  induction lines with
  | nil => exact absurd hmem (List.not_mem_nil l)
  | cons x xs ih =>
    rw [_get_last_header_line]
    cases hxs : _get_last_header_line xs with
    | some i => simp
    | none =>
      rcases List.mem_cons.mp hmem with rfl | hmemxs
      · simp [hl]
      · exact absurd hxs (ih hmemxs)

theorem _get_last_header_line_eq_none (lines : List String) :
    _get_last_header_line lines = none ↔ ∀ l ∈ lines, _is_header_line l = false := by
  constructor
  · intro h l hl
    by_contra hne
    have hl' : _is_header_line l = true := by
      revert hne; cases _is_header_line l <;> simp
    exact _get_last_header_line_ne_none lines l hl hl' h
  · exact _get_last_header_line_none_of_all lines

theorem _get_last_header_line_last_block (pre tail : List String) (h : String)
    (hh : _is_header_line h = true)
    (ht : ∀ l ∈ tail, _is_header_line l = false) :
    _get_last_header_line (pre ++ h :: tail) = some pre.length := by
  induction pre with
  | nil =>
    rw [List.nil_append, _get_last_header_line,
      _get_last_header_line_none_of_all tail ht, if_pos hh]
    rfl
  | cons x xs ih =>
    rw [List.cons_append, _get_last_header_line, ih]
    rfl

theorem getD_append_cons {α : Type} (pre : List α) (h : α) (tail : List α) (d : α) :
    (pre ++ h :: tail).getD pre.length d = h := by
  induction pre with
  | nil => rfl
  | cons x xs ih => simp only [List.cons_append, List.length_cons, List.getD_cons_succ]; exact ih

theorem drop_append_cons {α : Type} (pre : List α) (h : α) (tail : List α) :
    (pre ++ h :: tail).drop (pre.length + 1) = tail := by
  induction pre with
  | nil => rfl
  | cons x xs ih => simp only [List.cons_append, List.length_cons, List.drop_succ_cons]; exact ih

theorem read_table_last_block (parse : String → String → Row) (p : ResultPath)
    (pre tail : List String) (h : String)
    (hh : _is_header_line h = true)
    (ht : ∀ l ∈ tail, _is_header_line l = false) :
    read_table parse p (pre ++ h :: tail) = .ok (tail.map (parse h)) := by
  rw [read_table, _get_last_header_line_last_block pre tail h hh ht]
  change Except.ok (((pre ++ h :: tail).drop (pre.length + 1)).map
    (parse ((pre ++ h :: tail).getD pre.length ""))) = _
  rw [getD_append_cons, drop_append_cons]

/-- C1: for every record table (duplicate-free, as produced by the reader)
with exactly 41 work entries and elapsed step count 1,000,000, `extract_work`
returns a `Work` whose forward work is dimensionless-work[20] −
dimensionless-work[10], reverse work is dimensionless-work[40] −
dimensionless-work[30], and forward/reverse final potentials are
dimensionless-`Enew` at indices 20 and 40, where the dimensionless series
are the raw `protocol_work` and `Enew` columns divided by the `kT` value of
the first row (`spec_work_formula`). -/
theorem C1_extract_formula (p : ResultPath) (rows : List Row)
    (hnd : rows.Nodup) (hlen : rows.length = 41)
    (hsteps : (rows.getLastD row0).Step - (rows.headD row0).Step = 1000000) :
    extract_work_rows p rows = .ok (spec_work_formula p rows) := by
  have hdd : drop_duplicates rows = rows := drop_duplicates_eq_self hnd
  rcases rows with _ | ⟨r0, rest⟩
  · simp at hlen
  · rw [extract_work_rows_cons p _ r0 rest hdd]
    simp only [List.headD_cons] at hsteps
    exact extract_work_nonempty_ok p r0 rest hlen hsteps

/-- Witness for C1 at the concrete table `rows41`. -/
theorem C1_extract_formula_witness :
    rows41.Nodup ∧ extract_work_rows pW0 rows41 = .ok (spec_work_formula pW0 rows41) :=
  ⟨by decide, C1_extract_formula pW0 rows41 (by decide) (by decide) (by decide)⟩

/-- C2 counterexample: on the empty record table, `extract_work` does not
fail with a validation `ValueError` at all — the `kT` lookup
`df["kT"].astype(float)[0]` raises a raw `KeyError: 0` before any length or
step validation runs, contradicting the claim that an empty table fails
with a validation error reporting expected versus observed counts. -/
theorem C2_empty_table_counterexample :
    extract_work_rows pW0 [] = .error (.keyError 0)
      ∧ isValueErrorOutcome (extract_work_rows pW0 []) = false
      ∧ isDataValidationOutcome (extract_work_rows pW0 []) = false := by
  have h : extract_work_rows pW0 [] = .error (.keyError 0) :=
    extract_work_rows_nil pW0 [] drop_duplicates_nil
  rw [h]
  exact ⟨rfl, rfl, rfl⟩

/-- C2 (amended): for every duplicate-free record table, a non-empty table
whose work series does not have exactly 41 entries fails with the
`ValueError` reporting expected versus observed work counts; a non-empty
41-entry table whose elapsed step count is not 1,000,000 fails with the
`ValueError` reporting expected versus observed steps; and an empty table
fails with the raw `KeyError: 0` from the `kT` lookup (not a validation
error).  In no case is a `Work` returned. -/
theorem C2_shape_validation (p : ResultPath) (rows : List Row) (hnd : rows.Nodup) :
    (rows = [] → extract_work_rows p rows = .error (.keyError 0))
    ∧ (rows ≠ [] → rows.length ≠ 41 →
        extract_work_rows p rows
          = .error (.valueError s!"Expected {NUM_WORKS_EXPECTED} work values, but found {rows.length}"))
    ∧ (rows ≠ [] → rows.length = 41 →
        (rows.getLastD row0).Step - (rows.headD row0).Step ≠ 1000000 →
        extract_work_rows p rows
          = .error (.valueError s!"Expected {NUM_STEPS_EXPECTED} steps, but found {(rows.getLastD row0).Step - (rows.headD row0).Step}")) := by
  have hdd : drop_duplicates rows = rows := drop_duplicates_eq_self hnd
  refine ⟨?_, ?_, ?_⟩
  · intro h
    subst h
    exact extract_work_rows_nil p [] drop_duplicates_nil
  · intro hne hlen
    rcases rows with _ | ⟨r0, rest⟩
    · exact absurd rfl hne
    · rw [extract_work_rows_cons p _ r0 rest hdd]
      exact extract_work_nonempty_badlen p r0 rest hlen
  · intro hne hlen hsteps
    rcases rows with _ | ⟨r0, rest⟩
    · exact absurd rfl hne
    · simp only [List.headD_cons] at hsteps ⊢
      rw [extract_work_rows_cons p _ r0 rest hdd]
      exact extract_work_nonempty_badsteps p r0 rest hlen hsteps

/-- Witness for C2 (amended) at the concrete two-row table `rows2`. -/
theorem C2_shape_validation_witness :
    extract_work_rows pW0 rows2
      = .error (.valueError "Expected 41 work values, but found 2") := by
  rw [(C2_shape_validation pW0 rows2 (by decide)).2.1 (by decide) (by decide)]
  exact congrArg Except.error (congrArg PyError.valueError (by decide))

/-- C7 counterexample: on the empty record table the raw indexing fault
(`KeyError: 0` from the `kT` label lookup into a zero-row frame) propagates
to the caller unchanged — it is not remapped to any validation error, so
"never propagated to the caller as a raw indexing fault" is false. -/
theorem C7_empty_table_raw_fault :
    extract_work_rows pW0 [] = .error (.keyError 0)
      ∧ isRawIndexingFault (extract_work_rows pW0 []) = true
      ∧ isDataValidationOutcome (extract_work_rows pW0 []) = false
      ∧ isValueErrorOutcome (extract_work_rows pW0 []) = false := by
  have h : extract_work_rows pW0 [] = .error (.keyError 0) :=
    extract_work_rows_nil pW0 [] drop_duplicates_nil
  rw [h]
  exact ⟨rfl, rfl, rfl, rfl⟩

/-- C7 (amended): the checkpoint reads at indices 10, 20, 30, 40 can never
go out of range, because they run only after the 41-entry validation, so
`extract_work` never surfaces numpy's `IndexError` and the `except
KeyError` remap never fires on the checkpoint reads; the only raw indexing
fault it can surface is the `KeyError: 0` from the initial `kT` lookup,
which happens exactly when the deduplicated table is empty. -/
theorem C7_no_checkpoint_fault (p : ResultPath) (rows : List Row) :
    (∀ i, extract_work_rows p rows ≠ .error (.indexError i))
    ∧ (extract_work_rows p rows = .error (.keyError 0)
        ↔ drop_duplicates rows = []) := by
  cases hdd : drop_duplicates rows with
  | nil =>
    rw [extract_work_rows_nil p rows hdd]
    refine ⟨fun i h => by simp at h, by simp⟩
  | cons r0 rest =>
    rw [extract_work_rows_cons p rows r0 rest hdd]
    by_cases hlen : (r0 :: rest).length = 41
    · by_cases hsteps : ((r0 :: rest).getLastD row0).Step - r0.Step = 1000000
      · rw [extract_work_nonempty_ok p r0 rest hlen hsteps]
        exact ⟨fun i h => by simp at h, by simp⟩
      · rw [extract_work_nonempty_badsteps p r0 rest hlen hsteps]
        exact ⟨fun i h => by simp at h, by simp⟩
    · rw [extract_work_nonempty_badlen p r0 rest hlen]
      exact ⟨fun i h => by simp at h, by simp⟩

/-- Witness for C7 (amended): the characterization applied to the empty
table yields the concrete raw `KeyError`. -/
theorem C7_no_checkpoint_fault_witness :
    extract_work_rows pW0 [] = .error (.keyError 0) :=
  (C7_no_checkpoint_fault pW0 []).2.mpr drop_duplicates_nil

/-- C5 counterexample: on a file with no `kT` line, the reader fails with
the plain `ValueError("Missing header in {path}")` of `extract_work.py`
line 42 — not with the `DataValidationError` class declared in
`fah_xchem/analysis/exceptions.py`, which the reader never raises — so
"fails with DataValidationError" is false as stated. -/
theorem C5_wrong_error_class_counterexample :
    read_table parse0 pW0 ["Step,protocol_work,Enew"]
      = .error (.valueError "Missing header in PROJ13422/RUN0/CLONE2/results3/globals.csv")
      ∧ readIsDataValidationOutcome (read_table parse0 pW0 ["Step,protocol_work,Enew"]) = false := by
  constructor
  · rw [read_table, _get_last_header_line_none_of_all _ (by decide)]
    exact congrArg Except.error (congrArg PyError.valueError (by decide))
  · rfl

/-- C5 (amended): reading a record table fails — with the plain
`ValueError("Missing header in {path}")`, the repository's validation
failure, not a `DataValidationError` — exactly when no line of the file
contains the marker field name `kT`; otherwise rows are parsed starting
from the last header line, and duplicate rows are removed inside
`extract_work`, so a file with repeated header blocks (`pre ++ h :: tail`,
with `h` the final header line and no header line in `tail`) extracts
identically to the file containing only the final header block, and
equivalently to extracting the de-duplicated parsed rows of that final
block directly. -/
theorem C5_last_header_and_dedup (parse : String → String → Row) (p : ResultPath)
    (lines pre tail : List String) (h : String)
    (hh : _is_header_line h = true)
    (ht : ∀ l ∈ tail, _is_header_line l = false) :
    (read_table parse p lines = .error (.valueError s!"Missing header in {p.path}")
      ↔ ∀ l ∈ lines, _is_header_line l = false)
    ∧ extract_work parse p (pre ++ h :: tail) = extract_work parse p (h :: tail)
    ∧ extract_work parse p (h :: tail)
        = extract_work_rows p (drop_duplicates (tail.map (parse h))) := by
  have hsingle : read_table parse p (h :: tail) = .ok (tail.map (parse h)) := by
    have := read_table_last_block parse p [] tail h hh ht
    rwa [List.nil_append] at this
  refine ⟨⟨?_, ?_⟩, ?_, ?_⟩
  · intro herr l hl
    by_contra hne
    have hl' : _is_header_line l = true := by
      revert hne; cases _is_header_line l <;> simp
    have hnn := _get_last_header_line_ne_none lines l hl hl'
    cases hglhl : _get_last_header_line lines with
    | none => exact absurd hglhl hnn
    | some i => simp [read_table, hglhl] at herr
  · intro hall
    rw [read_table, _get_last_header_line_none_of_all lines hall]
  · rw [extract_work, extract_work, hsingle,
      read_table_last_block parse p pre tail h hh ht]
  · rw [extract_work, hsingle, except_bind_ok, extract_work_rows_dedup]

/-- Witness for C5 (amended) at a concrete two-header file. -/
theorem C5_last_header_and_dedup_witness :
    extract_work parse0 pW0 (["Step,kT,junk"] ++ "Step,kT,protocol_work,Enew" :: ["1,2,3,4"])
      = extract_work parse0 pW0 ("Step,kT,protocol_work,Enew" :: ["1,2,3,4"]) :=
  (C5_last_header_and_dedup parse0 pW0 [] ["Step,kT,junk"] ["1,2,3,4"]
    "Step,kT,protocol_work,Enew" (by decide) (by decide)).2.1

theorem except_bind_error {ε α β : Type} (e : ε) (f : α → Except ε β) :
    (Except.error e : Except ε α).bind f = .error e := rfl

theorem lookupStored_get (nw : List Nat) (k i : Nat)
    (h : lookupStored nw k = some i) : nw.get? i = some k := by
  induction nw generalizing i with
  | nil => exact absurd h (by simp [lookupStored])
  | cons x xs ih =>
    rw [lookupStored] at h
    by_cases hx : x = k
    · rw [if_pos hx] at h
      injection h with h
      subst h
      simp [hx]
    · rw [if_neg hx] at h
      cases hxs : lookupStored xs k with
      | none => rw [hxs] at h; exact absurd h (by simp)
      | some j =>
        rw [hxs] at h
        injection h with h
        subst h
        simpa using ih j hxs

theorem lookupStored_of_mem (nw : List Nat) (k : Nat) (h : k ∈ nw) :
    ∃ i, lookupStored nw k = some i := by
  induction nw with
  | nil => exact absurd h (List.not_mem_nil k)
  | cons x xs ih =>
    by_cases hx : x = k
    · exact ⟨0, by rw [lookupStored, if_pos hx]⟩
    · rcases List.mem_cons.mp h with rfl | hmem
      · exact absurd rfl hx
      · rcases ih hmem with ⟨j, hj⟩
        exact ⟨j + 1, by rw [lookupStored, if_neg hx, hj]; rfl⟩

theorem mapStored_ok_of_forall (nw l : List Nat)
    (h : ∀ k ∈ l, ∃ i, lookupStored nw k = some i) :
    ∃ out, mapStored nw l = .ok out := by
  induction l with
  | nil => exact ⟨[], rfl⟩
  | cons k ks ih =>
    rcases h k (List.mem_cons_self k ks) with ⟨i, hi⟩
    rcases ih (fun k' hk' => h k' (List.mem_cons_of_mem k hk')) with ⟨out, hout⟩
    exact ⟨i :: out, by rw [mapStored, hi, hout]; rfl⟩

theorem mapStored_mem (nw l out : List Nat) (h : mapStored nw l = .ok out) (x : Nat) :
    x ∈ out ↔ ∃ k ∈ l, lookupStored nw k = some x := by
  induction l generalizing out with
  | nil =>
    rw [mapStored] at h
    injection h with h
    subst h
    simp
  | cons k ks ih =>
    rw [mapStored] at h
    cases hk : lookupStored nw k with
    | none => rw [hk] at h; exact absurd h (by simp)
    | some i =>
      rw [hk] at h
      cases hks : mapStored nw ks with
      | error e => rw [hks] at h; exact absurd h (by simp [Except.map])
      | ok out' =>
        rw [hks] at h
        simp only [Except.map] at h
        injection h with h
        subst h
        constructor
        · intro hx
          rcases List.mem_cons.mp hx with rfl | hmem
          · exact ⟨k, List.mem_cons_self k ks, hk⟩
          · rcases (ih out' hks).mp hmem with ⟨k', hk', hl⟩
            exact ⟨k', List.mem_cons_of_mem k hk', hl⟩
        · rintro ⟨k', hk', hl⟩
          rcases List.mem_cons.mp hk' with rfl | hmem
          · rw [hk] at hl
            injection hl with hl
            subst hl
            exact List.mem_cons_self _ _
          · exact List.mem_cons_of_mem _ ((ih out' hks).mpr ⟨k', hmem, hl⟩)

theorem mapStored_append (nw a b oa ob : List Nat)
    (ha : mapStored nw a = .ok oa) (hb : mapStored nw b = .ok ob) :
    mapStored nw (a ++ b) = .ok (oa ++ ob) := by
  induction a generalizing oa with
  | nil =>
    rw [mapStored] at ha
    injection ha with ha
    subst ha
    simpa using hb
  | cons k ks ih =>
    rw [mapStored] at ha
    cases hk : lookupStored nw k with
    | none => rw [hk] at ha; exact absurd ha (by simp)
    | some i =>
      rw [hk] at ha
      cases hks : mapStored nw ks with
      | error e => rw [hks] at ha; exact absurd ha (by simp [Except.map])
      | ok oa' =>
        rw [hks] at ha
        simp only [Except.map] at ha
        injection ha with ha
        subst ha
        rw [List.cons_append, mapStored, hk, ih oa' hks]
        rfl

theorem select_mem (top : List AtomCategory) (p : AtomCategory → Bool) (i : Nat) :
    i ∈ select top p ↔ i < top.length ∧ p (top.getD i .other) = true := by
  rw [select, List.mem_filter, List.mem_range]

theorem protein_sub_nonwater (htf : Htf) (k : Nat)
    (h : k ∈ select htf.hybrid_topology (fun c => c = AtomCategory.protein)) :
    k ∈ select htf.hybrid_topology (fun c => c ≠ AtomCategory.water) := by
  rw [select_mem] at h ⊢
  refine ⟨h.1, ?_⟩
  have h2 := h.2
  simp only [decide_eq_true_eq] at h2 ⊢
  rw [h2]
  decide

theorem mol_sub_nonwater (htf : Htf) (k : Nat)
    (h : k ∈ select htf.hybrid_topology (fun c => c = AtomCategory.mol)) :
    k ∈ select htf.hybrid_topology (fun c => c ≠ AtomCategory.water) := by
  rw [select_mem] at h ⊢
  refine ⟨h.1, ?_⟩
  have h2 := h.2
  simp only [decide_eq_true_eq] at h2 ⊢
  rw [h2]
  decide

theorem get_stored_atom_indices_spec (htf : Htf) :
    ∃ p ol nl,
      mapStored (select htf.hybrid_topology (fun c => c ≠ AtomCategory.water))
        (select htf.hybrid_topology (fun c => c = AtomCategory.protein)) = .ok p
      ∧ mapStored (select htf.hybrid_topology (fun c => c ≠ AtomCategory.water))
        ((select htf.hybrid_topology (fun c => c = AtomCategory.mol)).filter
          (fun i => i ∈ htf.old_to_hybrid_values)) = .ok ol
      ∧ mapStored (select htf.hybrid_topology (fun c => c ≠ AtomCategory.water))
        ((select htf.hybrid_topology (fun c => c = AtomCategory.mol)).filter
          (fun i => i ∈ htf.new_to_hybrid_values)) = .ok nl
      ∧ get_stored_atom_indices htf = .ok
          { protein := p, old_ligand := ol, new_ligand := nl,
            old_complex := p ++ ol, new_complex := p ++ nl } := by
  obtain ⟨p, hp⟩ := mapStored_ok_of_forall _ _
    (fun k hk => lookupStored_of_mem _ k (protein_sub_nonwater htf k hk))
  obtain ⟨ol, hol⟩ := mapStored_ok_of_forall _
    ((select htf.hybrid_topology (fun c => c = AtomCategory.mol)).filter
      (fun i => i ∈ htf.old_to_hybrid_values))
    (fun k hk => lookupStored_of_mem _ k
      (mol_sub_nonwater htf k (List.mem_of_mem_filter hk)))
  obtain ⟨nl, hnl⟩ := mapStored_ok_of_forall _
    ((select htf.hybrid_topology (fun c => c = AtomCategory.mol)).filter
      (fun i => i ∈ htf.new_to_hybrid_values))
    (fun k hk => lookupStored_of_mem _ k
      (mol_sub_nonwater htf k (List.mem_of_mem_filter hk)))
  have hoc := mapStored_append _ _ _ _ _ hp hol
  have hnc := mapStored_append _ _ _ _ _ hp hnl
  refine ⟨p, ol, nl, hp, hol, hnl, ?_⟩
  simp only [get_stored_atom_indices, hp, hol, hnl, hoc, hnc, except_bind_ok]

/-- C3 counterexample: the old-ligand and new-ligand stored index sets are
not disjoint — an atom present in both identity maps (a shared core atom)
lands in both sets, so "pairwise disjoint" fails for a resolution the code
actually produces. -/
theorem C3_overlap_counterexample :
    get_stored_atom_indices htfC3 = .ok sC3
      ∧ (0 : Nat) ∈ sC3.old_ligand ∧ (0 : Nat) ∈ sC3.new_ligand :=
  ⟨rfl, by simp [sC3], by simp [sC3]⟩

/-- C3 (amended): for every atom-index resolution produced from a hybrid
topology, the protein stored index set is disjoint from each of the
old-ligand and new-ligand stored index sets (old-ligand and new-ligand may
overlap, on atoms present in both identity maps), and the old-complex set
equals the union (as sets — in fact the concatenation) of the protein and
old-ligand sets, while the new-complex set equals the union of the protein
and new-ligand sets. -/
theorem C3_index_sets (htf : Htf) (s : StoredAtomIndices)
    (h : get_stored_atom_indices htf = .ok s) :
    (∀ x ∈ s.protein, x ∉ s.old_ligand)
    ∧ (∀ x ∈ s.protein, x ∉ s.new_ligand)
    ∧ (∀ x, x ∈ s.old_complex ↔ x ∈ s.protein ∨ x ∈ s.old_ligand)
    ∧ (∀ x, x ∈ s.new_complex ↔ x ∈ s.protein ∨ x ∈ s.new_ligand) := by
  obtain ⟨p, ol, nl, hp, hol, hnl, heq⟩ := get_stored_atom_indices_spec htf
  rw [heq] at h
  injection h with h
  subst h
  have disj : ∀ (filt : Nat → Prop) (inst : DecidablePred filt) (lig : List Nat),
      mapStored (select htf.hybrid_topology (fun c => c ≠ AtomCategory.water))
        ((select htf.hybrid_topology (fun c => c = AtomCategory.mol)).filter
          (fun i => filt i)) = .ok lig →
      ∀ x ∈ p, x ∉ lig := by
    intro filt inst lig hlig x hxp hxl
    obtain ⟨k, hkP, hkl⟩ := (mapStored_mem _ _ _ hp x).mp hxp
    obtain ⟨k', hk'L, hk'l⟩ := (mapStored_mem _ _ _ hlig x).mp hxl
    have hg := lookupStored_get _ _ _ hkl
    have hg' := lookupStored_get _ _ _ hk'l
    rw [hg] at hg'
    injection hg' with hg'
    subst hg'
    have h1 := ((select_mem _ _ k).mp hkP).2
    have h2 := ((select_mem _ _ k).mp (List.mem_of_mem_filter hk'L)).2
    simp only [decide_eq_true_eq] at h1 h2
    rw [h1] at h2
    exact AtomCategory.noConfusion h2
  refine ⟨disj _ _ ol hol, disj _ _ nl hnl, ?_, ?_⟩
  · intro x
    exact List.mem_append
  · intro x
    exact List.mem_append

/-- Witness for C3 (amended) at the concrete topology `htfW`. -/
theorem C3_index_sets_witness :
    (0 : Nat) ∈ sW.old_complex ↔ (0 : Nat) ∈ sW.protein ∨ (0 : Nat) ∈ sW.old_ligand :=
  (C3_index_sets htfW sW rfl).2.2.1 0

/-- C8 counterexample: with an empty old-ligand and new-ligand projection,
`get_stored_atom_indices` does not fail with any validation error — it
succeeds and silently returns empty ligand index sets. -/
theorem C8_silent_empty_counterexample :
    get_stored_atom_indices htfC8 = .ok sC8
      ∧ sC8.old_ligand = [] ∧ sC8.new_ligand = [] :=
  ⟨rfl, rfl, rfl⟩

/-- C8 (amended): when the auxiliary `htf.npz` file is missing, resolution
fails with the loader's raw `FileNotFoundError` (not a validation error);
and no emptiness validation is performed — resolution always succeeds on a
loaded topology, and an empty old- or new-ligand projection yields an empty
index set for that subset without any error. -/
theorem C8_no_validation (opt : Option Htf) :
    (opt = none → get_stored_atom_indices_load opt = .error .fileNotFoundError)
    ∧ ∀ htf, opt = some htf →
        ∃ s, get_stored_atom_indices_load opt = .ok s
          ∧ ((select htf.hybrid_topology (fun c => c = AtomCategory.mol)).filter
              (fun i => i ∈ htf.old_to_hybrid_values) = [] → s.old_ligand = [])
          ∧ ((select htf.hybrid_topology (fun c => c = AtomCategory.mol)).filter
              (fun i => i ∈ htf.new_to_hybrid_values) = [] → s.new_ligand = []) := by
  constructor
  · intro h
    subst h
    rfl
  · intro htf h
    subst h
    obtain ⟨p, ol, nl, hp, hol, hnl, heq⟩ := get_stored_atom_indices_spec htf
    refine ⟨_, heq, ?_, ?_⟩
    · intro hempty
      rw [hempty] at hol
      have : (Except.ok [] : Except PyError (List Nat)) = .ok ol := hol
      injection this with this
      exact this.symm
    · intro hempty
      rw [hempty] at hnl
      have : (Except.ok [] : Except PyError (List Nat)) = .ok nl := hnl
      injection this with this
      exact this.symm

/-- Witness for C8 (amended): the missing-file case. -/
theorem C8_no_validation_witness :
    get_stored_atom_indices_load none = .error .fileNotFoundError :=
  (C8_no_validation none).1 rfl

theorem fancyIndex_ok (frame : List Coord) (idxs : List Nat)
    (h : ∀ i ∈ idxs, i < frame.length) :
    fancyIndex frame idxs = .ok (idxs.map (fun i => frame.getD i coord0)) := by
  induction idxs with
  | nil => rfl
  | cons i is ih =>
    have hi : i < frame.length := h i (List.mem_cons_self i is)
    rw [fancyIndex, List.get?_eq_getElem?, List.getElem?_eq_getElem hi,
      ih (fun j hj => h j (List.mem_cons_of_mem i hj))]
    simp only [Except.map, List.map_cons, List.getD_eq_getElem frame coord0 hi]

/-- C4 (amended): for every snapshot and resolved atom-index map whose index
lists are in range, slicing produces, for each of the five named subsets,
exactly the atoms at that subset's index list, in the order of that list —
no ascending sort is applied, so complex subsets come out in resolver order
(protein indices first, then ligand indices); each subset's value is an
independent fresh list computed from the source snapshot alone. -/
theorem C4_slice_exact (snapshot : List Coord) (sai : StoredAtomIndices)
    (hp : ∀ i ∈ sai.protein, i < snapshot.length)
    (hol : ∀ i ∈ sai.old_ligand, i < snapshot.length)
    (hnl : ∀ i ∈ sai.new_ligand, i < snapshot.length)
    (hoc : ∀ i ∈ sai.old_complex, i < snapshot.length)
    (hnc : ∀ i ∈ sai.new_complex, i < snapshot.length) :
    slice_snapshot snapshot sai = .ok
      { protein := sai.protein.map (fun i => snapshot.getD i coord0)
      , old_ligand := sai.old_ligand.map (fun i => snapshot.getD i coord0)
      , new_ligand := sai.new_ligand.map (fun i => snapshot.getD i coord0)
      , old_complex := sai.old_complex.map (fun i => snapshot.getD i coord0)
      , new_complex := sai.new_complex.map (fun i => snapshot.getD i coord0) } := by
  rw [slice_snapshot, fancyIndex_ok snapshot sai.protein hp, except_bind_ok,
    fancyIndex_ok snapshot sai.old_ligand hol, except_bind_ok,
    fancyIndex_ok snapshot sai.new_ligand hnl, except_bind_ok,
    fancyIndex_ok snapshot sai.old_complex hoc, except_bind_ok,
    fancyIndex_ok snapshot sai.new_complex hnc, except_bind_ok]

/-- C4 counterexample: the resolver produces the non-ascending old-complex
index list `[1, 0]`, and slicing emits the atoms in exactly that order —
not in ascending stored-index order, so "the index set is sorted ascending
before the cut" is false. -/
theorem C4_unsorted_counterexample :
    get_stored_atom_indices htfC4 = .ok sC4
      ∧ sC4.old_complex = [1, 0]
      ∧ slice_snapshot snapC4 sC4 = .ok ssC4
      ∧ (ssC4.old_complex == [snapC4.getD 0 coord0, snapC4.getD 1 coord0]) = false :=
  ⟨rfl, rfl, rfl, by decide⟩

/-- Witness for C4 (amended) at the concrete snapshot `snapC4` and index
map `sC4`. -/
theorem C4_slice_exact_witness :
    slice_snapshot snapC4 sC4 = .ok
      { protein := sC4.protein.map (fun i => snapC4.getD i coord0)
      , old_ligand := sC4.old_ligand.map (fun i => snapC4.getD i coord0)
      , new_ligand := sC4.new_ligand.map (fun i => snapC4.getD i coord0)
      , old_complex := sC4.old_complex.map (fun i => snapC4.getD i coord0)
      , new_complex := sC4.new_complex.map (fun i => snapC4.getD i coord0) } :=
  C4_slice_exact snapC4 sC4 (by decide) (by decide) (by decide) (by decide) (by decide)

theorem foldl_argAux_eq_min_fold (ws : List Work) (w : Work) :
    ws.foldl (List.argAux (fun b c : Work => b.reverse_work < c.reverse_work)) (some w)
      = some (ws.foldl
          (fun best x => if x.reverse_work < best.reverse_work then x else best) w) := by
  induction ws generalizing w with
  | nil => rfl
  | cons x xs ih =>
    have e : List.argAux (fun b c : Work => b.reverse_work < c.reverse_work) (some w) x
        = some (if x.reverse_work < w.reverse_work then x else w) := by
      simp only [List.argAux, apply_ite]
      split <;> rfl
    rw [List.foldl_cons, e, ih]
    rfl

theorem min_fold_eq_argmin (w : Work) (ws : List Work) :
    List.argmin (fun v : Work => v.reverse_work) (w :: ws)
      = some (ws.foldl
          (fun best x => if x.reverse_work < best.reverse_work then x else best) w) := by
  rw [List.argmin, List.foldl_cons]
  exact foldl_argAux_eq_min_fold ws w

/-- C6 counterexample: on the empty sequence, the selection fails with
Python's builtin `ValueError` from `min`, not with `InvalidResultError`. -/
theorem C6_empty_counterexample :
    min_by_reverse_work [] = .error (.valueError "min() arg is an empty sequence")
      ∧ isInvalidResultOutcome (min_by_reverse_work []) = false :=
  ⟨rfl, rfl⟩

/-- C6 (amended): for every non-empty sequence of `Work` values, the
selection returns an element whose `reverse_work` is less than or equal to
every element's, with ties broken by input order (the returned element's
first occurrence is no later than that of any element attaining the
minimum); for a singleton it returns that element; for an empty sequence it
fails with Python's `ValueError` from builtin `min` (the repository never
raises `InvalidResultError` here, although the class is declared in
`fah_xchem/analysis/exceptions.py`). -/
theorem C6_min_reverse_work (works : List Work) :
    (works = [] → min_by_reverse_work works
        = .error (.valueError "min() arg is an empty sequence"))
    ∧ (∀ w, works = [w] → min_by_reverse_work works = .ok w)
    ∧ (∀ w ws, works = w :: ws →
        ∃ r, min_by_reverse_work works = .ok r
          ∧ r ∈ works
          ∧ (∀ v ∈ works, r.reverse_work ≤ v.reverse_work)
          ∧ (∀ v ∈ works, v.reverse_work ≤ r.reverse_work →
              works.indexOf r ≤ works.indexOf v)) := by
  refine ⟨?_, ?_, ?_⟩
  · intro h
    subst h
    rfl
  · intro w h
    subst h
    rfl
  · intro w ws h
    subst h
    refine ⟨_, rfl, ?_⟩
    have harg := min_fold_eq_argmin w ws
    have hiff := List.argmin_eq_some_iff.mp harg
    exact ⟨hiff.1, hiff.2.1, hiff.2.2⟩

/-- Witness for C6 (amended): the singleton case at `wA`. -/
theorem C6_min_reverse_work_witness :
    min_by_reverse_work [wA] = .ok wA :=
  (C6_min_reverse_work [wA]).2.1 wA rfl

/-- C10: when the structural-file-to-molecule conversion reads zero
molecules from the written snapshot it returns `None` instead of raising
(and returns the first molecule otherwise), so the components mapping
returned by snapshot extraction binds a subset name (`protein`,
`old_ligand`, `new_ligand`) to `None` without any error being reported to
the caller — `build_components` is total and has no error outcome. -/
theorem C10_none_on_empty {Mol : Type} (readMols : List Coord → List Mol)
    (ss : SlicedSnapshot) :
    (∀ s, readMols s = [] → mdtraj_to_oemol readMols s = none)
    ∧ (∀ s m rest, readMols s = m :: rest → mdtraj_to_oemol readMols s = some m)
    ∧ (readMols ss.protein = [] →
        ("protein", (none : Option Mol)) ∈ build_components readMols ss)
    ∧ (readMols ss.old_ligand = [] →
        ("old_ligand", (none : Option Mol)) ∈ build_components readMols ss)
    ∧ (readMols ss.new_ligand = [] →
        ("new_ligand", (none : Option Mol)) ∈ build_components readMols ss) := by
  refine ⟨?_, ?_, ?_, ?_, ?_⟩
  · intro s h
    rw [mdtraj_to_oemol, h]
  · intro s m rest h
    rw [mdtraj_to_oemol, h]
  · intro h
    have : mdtraj_to_oemol readMols ss.protein = none := by rw [mdtraj_to_oemol, h]
    simp [build_components, this]
  · intro h
    have : mdtraj_to_oemol readMols ss.old_ligand = none := by rw [mdtraj_to_oemol, h]
    simp [build_components, this]
  · intro h
    have : mdtraj_to_oemol readMols ss.new_ligand = none := by rw [mdtraj_to_oemol, h]
    simp [build_components, this]

/-- Witness for C10: an empty molecule stream binds `old_ligand` to `None`
in the components mapping of the concrete sliced snapshot `ssC4`. -/
theorem C10_none_on_empty_witness :
    ("old_ligand", (none : Option Nat))
      ∈ build_components (fun _ => ([] : List Nat)) ssC4 :=
  (C10_none_on_empty (fun _ => ([] : List Nat)) ssC4).2.2.2.1 rfl
